import Mathlib

/-!
Verification of the rust-simple-httpie CLI (src/main.rs) against its
natural-language specification.  Strings of the Rust program are embedded
as lists of characters (`Str`); fallible Rust functions returning
`Result` are embedded as `Except`-valued Lean functions, and an `unwrap`
panic is marked by an `.error ()` of a dedicated panic type.

The file is organized as: all definitions first, then all lemmas and
claim theorems.
-/

/-- Characters of a Rust `&str`, embedded as a list of `Char`. -/
abbrev Str := List Char

/-- Convenience conversion from a Lean string literal to `Str`. -/
def str (s : String) : Str := s.toList

/-- The newline character (Rust `'\n'`). -/
def nlChar : Char := Char.ofNat 10

/-- The ANSI escape character introduced by terminal coloring. -/
def escChar : Char := Char.ofNat 27

/-- Embeds Rust `str::split("=")` (split on every occurrence of `=`,
including leading/trailing empty fragments; `""` yields `[""]`). -/
def splitEq : Str → List Str
  | [] => [[]]
  | c :: cs =>
    if c = '=' then [] :: splitEq cs
    else
      match splitEq cs with
      | [] => [[c]]
      | h :: t => (c :: h) :: t

/-- The `KvPair` struct of src/main.rs: one `key=value` body field. -/
structure KvPair where
  k : Str
  v : Str
deriving DecidableEq, Repr

/-- Embeds `KvPair::from_str` (src/main.rs:48-59): split the token on `=`,
take the first fragment as key and the second as value via two iterator
`next()` calls; a missing fragment yields the corresponding `anyhow!` error.
(The no-key branch is kept although `split` never yields an empty iterator.) -/
def kvFromStr (s : Str) : Except String KvPair :=
  match splitEq s with
  | [] => .error "Failed to parse: no key found"
  | [_] => .error "Failed to parse: no value found"
  | k :: v :: _ => .ok ⟨k, v⟩

/-- True exactly on the `.ok` results of an `Except`. -/
def exceptIsOk : Except ε α → Bool
  | .ok _ => true
  | .error _ => false

/-- Embeds one `map.insert(key, value)` of the body-building loop of `post`
(src/main.rs:88-101): a later insert for the same key overwrites the
earlier value.  The `HashMap` is embedded by its lookup function; the
iteration (serialization) order of the Rust `HashMap` is deliberately not
modelled, being randomized per process. -/
def insertPair (m : Str → Option Str) (p : KvPair) : Str → Option Str :=
  fun q => if q = p.k then some p.v else m q

/-- Lookup function of the `HashMap` built by `post` from the parsed body. -/
def buildBodyMap (pairs : List KvPair) : Str → Option Str :=
  pairs.foldl insertPair (fun _ => none)

/-- Characters allowed in an HTTP token (tchar of RFC 7230), as accepted by
the mime crate for type, subtype and parameter names/values: alphanumerics
and the specials, given here by code point. -/
def isTchar (c : Char) : Bool :=
  c.isAlphanum ||
    [33, 35, 36, 37, 38, 39, 42, 43, 45, 46, 94, 95, 96, 124, 126].contains c.toNat

/-- A parsed media type of the mime crate: lowercased type and subtype and
a parameter list.  Equality (the crate's `==`, used by `print_body`) is
structural, so a mime carrying parameters differs from the bare media
type. -/
structure Mime where
  type_ : Str
  subtype : Str
  params : List (Str × Str)
deriving DecidableEq, Repr

/-- The constant `mime::TEXT_HTML`. -/
def textHtml : Mime := ⟨str "text", str "html", []⟩

/-- The constant `mime::APPLICATION_JSON`. -/
def applicationJson : Mime := ⟨str "application", str "json", []⟩

/-- Parameter-list parser of the mime crate (restricted model: token-form
parameter values only, quoted-string values are not modelled; optional
spaces after each `;` are skipped).  The first argument is fuel, always
called with more fuel than remaining characters. -/
def parseParams : Nat → Str → Option (List (Str × Str))
  | _, [] => some []
  | 0, _ => none
  | fuel + 1, s =>
    match s with
    | ';' :: r =>
      let r1 := r.dropWhile (fun c => c = ' ')
      let k := r1.takeWhile isTchar
      let r2 := r1.dropWhile isTchar
      if k = [] then none
      else
        match r2 with
        | '=' :: r3 =>
          let v := r3.takeWhile isTchar
          let r4 := r3.dropWhile isTchar
          if v = [] then none
          else (parseParams fuel r4).map (fun ps => (k.map Char.toLower, v) :: ps)
        | _ => none
    | _ => none

/-- Embeds `Mime::from_str` of the mime crate (reached via `.parse()` in
`get_content_type`): `type/subtype` made of tchar tokens, lowercased, with
an optional `;`-separated parameter list.  Quoted-string parameter values
are outside the modelled fragment. -/
def mimeParse (s : Str) : Option Mime :=
  let t := s.takeWhile isTchar
  let rest := s.dropWhile isTchar
  if t = [] then none
  else
    match rest with
    | '/' :: r =>
      let sub := r.takeWhile isTchar
      let r2 := r.dropWhile isTchar
      if sub = [] then none
      else
        (parseParams (r2.length + 1) r2).map
          (fun ps => ⟨t.map Char.toLower, sub.map Char.toLower, ps⟩)
    | _ => none

/-- Embeds `HeaderValue::to_str` of the http crate: succeeds exactly when
every byte is visible ASCII or space; otherwise the value cannot be viewed
as a `&str` and the caller's `unwrap` panics. -/
def headerToStr (v : Str) : Option Str :=
  if v.all (fun c => decide (32 ≤ c.toNat ∧ c.toNat < 127)) then some v else none

/-- Embeds `get_content_type` (src/main.rs:103-107): `.map` over the looked
up `Content-Type` header value, converting it to a string and parsing it
as a mime, each with `.unwrap()`; a failing unwrap is a panic, modelled as
`.error ()`. -/
def getContentType (h : Option Str) : Except Unit (Option Mime) :=
  match h with
  | none => .ok none
  | some v =>
    match headerToStr v with
    | none => .error ()
    | some s =>
      match mimeParse s with
      | none => .error ()
      | some m => .ok (some m)

/-- A received HTTP response as consumed by the renderer: protocol version,
status, headers in received order (names normalized to lowercase by the
http crate), and the body text (whose buffered read is assumed to have
succeeded). -/
structure Response where
  version : Str
  status : Str
  headers : List (Str × Str)
  body : Str

/-- Embeds `response.headers().get(CONTENT_TYPE)`: the first header named
`content-type`. -/
def findContentTypeHeader (hs : List (Str × Str)) : Option Str :=
  (hs.find? (fun h => h.1 == str "content-type")).map (fun h => h.2)

/-- Models `SyntaxSet::load_defaults_newlines().find_syntax_by_extension`:
the default grammar set bundled with syntect contains grammars for the
extensions "html" and "json", the only two the program requests. -/
def findSyntaxByExtension (e : String) : Option String :=
  if e = "html" then some "html" else if e = "json" then some "json" else none

/-- Embeds `LinesWithEndings::from`: the lines of a string, each keeping
its trailing newline; a final line without newline is kept as is, and the
empty string yields no lines. -/
def linesWithEndings : Str → List Str
  | [] => []
  | c :: cs =>
    if c = nlChar then [c] :: linesWithEndings cs
    else
      match linesWithEndings cs with
      | [] => [[c]]
      | h :: t => (c :: h) :: t

/-- Models one output fragment of `as_24_bit_terminal_escaped`: the
external engine decorates the line with ANSI escape sequences, abstracted
here as an escape-character prefix; the line text itself is preserved. -/
def highlightFragment (l : Str) : Str := escChar :: l

/-- Embeds `print_with_syntect` (src/main.rs:151-162): look up the grammar
for the extension and `.unwrap()` it (panic when absent), then emit one
decorated fragment per line.  `highlight_line`'s own `Result` is modelled
as succeeding, the engine being a black box. -/
def printWithSyntect (s : Str) (codeType : String) : Except Unit (List Str) :=
  match findSyntaxByExtension codeType with
  | none => .error ()
  | some _ => .ok ((linesWithEndings s).map highlightFragment)

/-- Embeds `print_body` (src/main.rs:141-149): highlight as "html" when the
mime equals `TEXT_HTML`, as "json" when it equals `APPLICATION_JSON`,
otherwise `println!` the body verbatim — one output chunk consisting of
the body followed by the newline `println!` appends. -/
def printBody (m : Option Mime) (body : Str) : Except Unit (List Str) :=
  match m with
  | some v =>
    if v = textHtml then printWithSyntect body "html"
    else if v = applicationJson then printWithSyntect body "json"
    else .ok [body ++ [nlChar]]
  | none => .ok [body ++ [nlChar]]

/-- Models the status line printed by `print_status`: protocol version then
status code (the colored-crate escapes around the two fields are elided;
the claims concern content and order). -/
def formatStatus (r : Response) : Str := r.version ++ ' ' :: r.status

/-- Models one header line printed by `print_header`: `name: ` followed by
the value in its `{:?}` debug form (surrounding quotes). -/
def formatHeader (h : Str × Str) : Str :=
  h.1 ++ ':' :: ' ' :: '"' :: h.2 ++ ['"']

/-- Embeds `print_all` (src/main.rs:109-119): the status line and every
header in received order are printed first; only then is the content type
extracted — whose unwraps may panic after that partial output — and the
body rendered accordingly.  The first component is the ordered list of
chunks actually printed (on a panic: the status line and headers only,
never the body), the second marks whether a panic aborted the run. -/
def printAll (r : Response) : List Str × Except Unit Unit :=
  let pre := formatStatus r :: r.headers.map formatHeader
  match getContentType (findContentTypeHeader r.headers) with
  | .error e => (pre, .error e)
  | .ok m =>
    match printBody m r.body with
    | .error e => (pre, .error e)
    | .ok bodyOut => (pre ++ bodyOut, .ok ())

/-- Process outcome of one stage: a normal exit code or an abort by
panic. -/
inductive ExitBehavior
  | exitCode (n : Nat)
  | panicAbort
deriving DecidableEq, Repr

/-- Outcome of running the render stage on a received response. -/
def renderOutcome (r : Response) : ExitBehavior :=
  match (printAll r).2 with
  | .ok _ => .exitCode 0
  | .error _ => .panicAbort

/-- Embeds the `Result` propagation of `main` (src/main.rs:69-80): an `Ok`
exits 0, an `Err` is printed by the runtime as an error message and the
process exits with code 1.  This covers errors that arrive as `Result`
values, not panics. -/
def mainExitOnResult : Except String Unit → Nat
  | .ok _ => 0
  | .error _ => 1

/-- Errors of `url::Url::parse` arising within the modelled fragment. -/
inductive UrlError
  | relativeUrlWithoutBase
  | emptyHost
  | invalidPort
  | invalidHostChar
deriving DecidableEq, Repr

/-- A parsed URL of the url crate, restricted to the fragment the program
exercises: either a special-scheme (http/https) URL with optional
userinfo, lowercased host, optional non-default port and a
path-query-fragment tail, or a non-special URL kept verbatim after its
scheme.  IDNA, percent-encoding and dot-segment path normalization are
outside the modelled fragment. -/
inductive Url
  | special (scheme : Str) (userinfo : Option Str) (host : Str)
      (port : Option Nat) (tail : Str)
  | nonSpecial (scheme : Str) (rest : Str)
deriving DecidableEq, Repr

/-- Scheme characters after the first (which must be alphabetic). -/
def isSchemeChar (c : Char) : Bool :=
  c.isAlphanum || ['+', '-', '.'].contains c

/-- Host code points rejected by the url crate (model of the WHATWG
forbidden host code points; the backslash and delete are given by code
point). -/
def forbiddenHostChar (c : Char) : Bool :=
  c.toNat ≤ 32 ||
    ['#', '%', '/', ':', '?', '@', '[', ']', '^', '|', '<', '>', '"'].contains c ||
    c.toNat == 92 || c.toNat == 127

/-- Default port of a special scheme, elided from the serialization. -/
def defaultPort (scheme : Str) : Option Nat :=
  if scheme = str "http" then some 80
  else if scheme = str "https" then some 443
  else none

/-- Port parser: empty means no port; digits must fit below 65536. -/
def parsePort (s : Str) : Except UrlError (Option Nat) :=
  if s = [] then .ok none
  else if s.all Char.isDigit then
    let n := s.foldl (fun acc c => acc * 10 + (c.toNat - 48)) 0
    if n < 65536 then .ok (some n) else .error .invalidPort
  else .error .invalidPort

/-- Embeds `url::Url::parse` on the modelled fragment: a scheme
(alphabetic head, then alphanumeric or `+ - .`) followed by `:` is
required, else the input is a relative URL; for http/https the authority
is parsed (leading slashes skipped, optional userinfo before the last `@`,
host lowercased and checked non-empty and free of forbidden code points,
optional port) and a missing path becomes `/`; any other scheme keeps its
remainder verbatim. -/
def urlParse (s : Str) : Except UrlError Url :=
  match s with
  | [] => .error .relativeUrlWithoutBase
  | c :: _ =>
    if !c.isAlpha then .error .relativeUrlWithoutBase
    else
      let schemeRaw := s.takeWhile isSchemeChar
      let rest := s.dropWhile isSchemeChar
      match rest with
      | ':' :: r =>
        let scheme := schemeRaw.map Char.toLower
        if scheme = str "http" ∨ scheme = str "https" then
          let r1 := r.dropWhile (fun c2 => c2 == '/' || c2.toNat == 92)
          let auth := r1.takeWhile (fun c2 => !(c2 == '/' || c2 == '?' || c2 == '#'))
          let after := r1.dropWhile (fun c2 => !(c2 == '/' || c2 == '?' || c2 == '#'))
          let hostport := (auth.reverse.takeWhile (fun c2 => !(c2 == '@'))).reverse
          let userinfo :=
            if auth.length = hostport.length then none
            else some (auth.take (auth.length - hostport.length - 1))
          let hostRaw := hostport.takeWhile (fun c2 => !(c2 == ':'))
          let portStr := (hostport.dropWhile (fun c2 => !(c2 == ':'))).drop 1
          let host := hostRaw.map Char.toLower
          if host = [] then .error .emptyHost
          else if host.any forbiddenHostChar then .error .invalidHostChar
          else
            match parsePort portStr with
            | .error e => .error e
            | .ok p =>
              let port := if p = defaultPort scheme then none else p
              let tail :=
                if after = [] then ['/']
                else if after.head? = some '/' then after
                else '/' :: after
              .ok (.special scheme userinfo host port tail)
        else .ok (.nonSpecial scheme r)
      | _ => .error .relativeUrlWithoutBase

/-- Serialization of a parsed URL (Rust `String::from(url)`). -/
def urlSerialize : Url → Str
  | .special scheme userinfo host port tail =>
    scheme ++ str "://" ++
      (match userinfo with
       | none => []
       | some u => u ++ ['@']) ++
      host ++
      (match port with
       | none => []
       | some p => ':' :: str (toString p)) ++
      tail
  | .nonSpecial scheme rest => scheme ++ ':' :: rest

/-- Embeds `parse_url` (src/main.rs:65-67): parse the URL and store its
serialization; the parse error propagates via `?`. -/
def parse_url (s : Str) : Except UrlError Str :=
  (urlParse s).map urlSerialize

/-- Raw CLI input after subcommand selection: the `-u` token and, for
post, the comma-split `-b` tokens. -/
inductive Cmd
  | get (url : Str)
  | post (url : Str) (body : List Str)

/-- A CLI validation error: the wrapped url crate error or the body pair
message. -/
inductive CliError
  | invalidUrl (e : UrlError)
  | invalidBodyPair (msg : String)
deriving DecidableEq, Repr

/-- The validated `Opts` produced by argument parsing (src/main.rs:14-40):
a normalized URL and, for post, the parsed `KvPair`s. -/
inductive Opts
  | get (url : Str)
  | post (url : Str) (body : List KvPair)

/-- Embeds clap's argument validation: the `value_parser` attributes run
`parse_url` on the `-u` value and `kvFromStr` on each `-b` token while the
arguments are parsed, before any other work of `main`. -/
def parseOpts : Cmd → Except CliError Opts
  | .get u =>
    match parse_url u with
    | .error e => .error (.invalidUrl e)
    | .ok nu => .ok (.get nu)
  | .post u b =>
    match parse_url u with
    | .error e => .error (.invalidUrl e)
    | .ok nu =>
      match b.mapM kvFromStr with
      | .error m => .error (.invalidBodyPair m)
      | .ok pairs => .ok (.post nu pairs)

/-- The `-u` token of a command. -/
def urlOf : Cmd → Str
  | .get u => u
  | .post u _ => u

/-- Embeds the control flow of `main` (src/main.rs:69-80): `Opts::parse`
validates the arguments first, and only a successfully parsed `Opts`
reaches the dispatch stage (`get`/`post`), which performs exactly one HTTP
send.  The second component counts network sends. -/
def runCli (c : Cmd) : Except CliError Unit × Nat :=
  match parseOpts c with
  | .error e => (.error e, 0)
  | .ok _ => (.ok (), 1)

/- ======================  LEMMAS AND CLAIM THEOREMS  ====================== -/

theorem splitEq_ne_nil (s : Str) : splitEq s ≠ [] := by
  cases s with
  | nil => simp [splitEq]
  | cons c cs =>
    simp only [splitEq]
    by_cases h : c = '='
    · simp [h]
    · simp only [if_neg h]
      cases splitEq cs <;> simp

theorem splitEq_append (k v : Str) (hk : '=' ∉ k) :
    splitEq (k ++ '=' :: v) = k :: splitEq v := by
  induction k with
  | nil => simp [splitEq]
  | cons c cs ih =>
    have hc : c ≠ '=' := fun h => hk (h ▸ List.mem_cons_self c cs)
    have hcs : '=' ∉ cs := fun h => hk (List.mem_cons_of_mem c h)
    simp only [List.cons_append, splitEq, if_neg hc, List.append_eq, ih hcs]

theorem splitEq_head (v : Str) :
    splitEq v = v.takeWhile (fun c => !(c = '=')) :: (splitEq v).tail := by
  induction v with
  | nil => simp [splitEq, List.takeWhile]
  | cons c cs ih =>
    by_cases h : c = '='
    · simp [splitEq, h, List.takeWhile]
    · simp only [splitEq, if_neg h, List.takeWhile, decide_eq_true_eq]
      rw [ih]
      simp [h]

theorem splitEq_length (s : Str) :
    (splitEq s).length = s.countP (fun c => c = '=') + 1 := by
  induction s with
  | nil => simp [splitEq]
  | cons c cs ih =>
    by_cases h : c = '='
    · simp [splitEq, h, List.countP_cons, ih]
    · simp only [splitEq, if_neg h]
      have hne := splitEq_ne_nil cs
      cases heq : splitEq cs with
      | nil => exact absurd heq hne
      | cons x xs =>
        rw [heq] at ih
        simp only [List.length_cons] at ih ⊢
        simp [List.countP_cons, h, ih]

/-- C1 counterexample: parsing `a=b=c` yields the value `b`, not the full
remainder `b=c` after the first `=` — the trailing `=c` is dropped, so a
value containing `=` is not preserved intact. -/
theorem c1_counterexample :
    kvFromStr (str "a=b=c") = .ok ⟨str "a", str "b"⟩ ∧
    (⟨str "a", str "b"⟩ : KvPair) ≠ ⟨str "a", str "b=c"⟩ :=
  ⟨rfl, by decide⟩

/-- C1 (amended): for a token `key=rest` whose key contains no `=`, parsing
recovers the key exactly, but the value is only the fragment of `rest`
before the next `=` (the remainder past a second `=` is dropped).  For a
`rest` without `=` this recovers the value exactly. -/
theorem c1_kv_parse_first_two_fragments (k v : Str) (hk : '=' ∉ k) :
    kvFromStr (k ++ '=' :: v) = .ok ⟨k, v.takeWhile (fun c => !(c = '='))⟩ := by
  unfold kvFromStr
  rw [splitEq_append k v hk, splitEq_head v]

/-- C1 witness: the amended theorem evaluated at the token `a=b=c`. -/
theorem c1_witness :
    kvFromStr (str "a" ++ '=' :: str "b=c") =
      .ok ⟨str "a", (str "b=c").takeWhile (fun c => !(c = '='))⟩ :=
  c1_kv_parse_first_two_fragments (str "a") (str "b=c") (by decide)

/-- C2 counterexample: a token with an empty key (`=v`) and a token with an
empty value (`k=`) are both accepted by `KvPair::from_str`, producing a
pair whose key (resp. value) is the empty string — neither is rejected,
and the produced pair's key may be empty. -/
theorem c2_counterexample :
    kvFromStr (str "=v") = .ok ⟨[], str "v"⟩ ∧
    kvFromStr (str "k=") = .ok ⟨str "k", []⟩ :=
  ⟨rfl, rfl⟩

/-- C2 (amended): parsing a body token fails (with the `anyhow` parse
error) exactly when the token contains no `=`; tokens with an empty key or
empty value are accepted. -/
theorem c2_kv_parse_error_iff_no_eq (s : Str) :
    exceptIsOk (kvFromStr s) = false ↔ '=' ∉ s := by
  have hlen := splitEq_length s
  have hcount : s.countP (fun c => c = '=') = 0 ↔ '=' ∉ s := by
    rw [List.countP_eq_zero]
    constructor
    · intro h hmem
      have := h '=' hmem
      simp at this
    · intro h a ha
      simp only [decide_eq_true_eq]
      intro heq
      exact h (heq ▸ ha)
  cases heq : splitEq s with
  | nil => exact absurd heq (splitEq_ne_nil s)
  | cons x xs =>
    cases xs with
    | nil =>
      rw [heq] at hlen
      simp only [List.length_cons, List.length_nil] at hlen
      have : s.countP (fun c => c = '=') = 0 := by omega
      simp [kvFromStr, heq, exceptIsOk, hcount.mp this]
    | cons y ys =>
      rw [heq] at hlen
      simp only [List.length_cons] at hlen
      have hpos : 0 < s.countP (fun c => c = '=') := by omega
      obtain ⟨a, ha, hp⟩ := List.countP_pos_iff.mp hpos
      have haeq : a = '=' := by simpa using hp
      subst haeq
      simp [kvFromStr, heq, exceptIsOk, ha]

/-- C4: the map built by `post`'s insert loop sends every key to the value
of the last occurrence of that key in the body sequence (and to `none` when
the key never occurs): later duplicates overwrite earlier ones. -/
theorem c4_last_occurrence_wins (pairs : List KvPair) (key : Str) :
    buildBodyMap pairs key =
      ((pairs.filter (fun p => p.k == key)).getLast?).map KvPair.v := by
  suffices h : ∀ (m : Str → Option Str),
      (pairs.foldl insertPair m) key =
        ((pairs.filter (fun p => p.k == key)).getLast?).elim (m key)
          (fun p => some p.v) by
    have h2 := h (fun _ => none)
    rw [buildBodyMap, h2]
    cases (pairs.filter (fun p => p.k == key)).getLast? <;> rfl
  induction pairs with
  | nil => intro m; simp
  | cons p rest ih =>
    intro m
    simp only [List.foldl_cons, List.filter_cons]
    by_cases h : p.k = key
    · have hb : (p.k == key) = true := by simp [h]
      rw [hb]
      simp only [if_pos rfl]
      cases hf : rest.filter (fun q => q.k == key) with
      | nil =>
        rw [ih (insertPair m p)]
        simp [hf, insertPair, h]
      | cons a as =>
        rw [ih (insertPair m p)]
        simp only [hf, List.getLast?_cons_cons]
        rw [List.getLast?_eq_getLast (a :: as) (by simp)]
        simp [List.getLast?_eq_getLast]
    · have hne : key ≠ p.k := fun hh => h hh.symm
      have hb : (p.k == key) = false := by simp [h]
      have hip : insertPair m p key = m key := by simp [insertPair, hne]
      rw [hb]
      simp only [Bool.false_eq_true, if_neg, not_false_iff]
      rw [ih (insertPair m p), hip]

/-- C5 counterexample: a present `Content-Type` header whose value
(`garbage`, lacking a `/`) is not parseable as a media type makes
`get_content_type` panic on its `unwrap` — it does not return none. -/
theorem c5_counterexample :
    getContentType (some (str "garbage")) = .error () ∧
    (Except.error () : Except Unit (Option Mime)) ≠ .ok none :=
  ⟨rfl, by simp⟩

/-- C5 (amended): content-type extraction returns none when the header is
absent; when the header is present it either panics (non-ASCII or
unparseable value, via the two `unwrap`s) or returns the parsed media
type — it never degrades an unparseable value to none. -/
theorem c5_extraction_absent_none_present_panics_or_parses :
    getContentType none = Except.ok none ∧
    ∀ v : Str,
      getContentType (some v) = Except.error () ∨
        ∃ m, getContentType (some v) = Except.ok (some m) := by
  refine ⟨rfl, fun v => ?_⟩
  cases h1 : headerToStr v with
  | none => exact Or.inl (by simp [getContentType, h1])
  | some s =>
    cases h2 : mimeParse s with
    | none => exact Or.inl (by simp [getContentType, h1, h2])
    | some m => exact Or.inr ⟨m, by simp [getContentType, h1, h2]⟩

/-- C6 counterexample: rendering a response whose `Content-Type` header is
`garbage` aborts the process with a panic instead of reporting an error
message with a non-zero exit. -/
theorem c6_counterexample :
    renderOutcome
        ⟨str "HTTP/1.1", str "200 OK",
          [(str "content-type", str "garbage")], str "hi"⟩ =
      ExitBehavior.panicAbort :=
  rfl

/-- C6 (amended): errors surfaced as `Result` values are converted by the
entry point into an error message and exit code 1; and the highlight
path's grammar lookups for the two table languages ("html" and "json")
succeed against the default grammar set, so that path does not panic.  But
the renderer's `unwrap` calls can abort with a panic on an unparseable
`Content-Type` header (see the counterexample). -/
theorem c6_result_errors_reported_nonzero :
    (∀ e : String, mainExitOnResult (Except.error e) = 1) ∧
    ∀ body : Str,
      printWithSyntect body "html" =
          Except.ok ((linesWithEndings body).map highlightFragment) ∧
        printWithSyntect body "json" =
          Except.ok ((linesWithEndings body).map highlightFragment) :=
  ⟨fun _ => rfl, fun _ => ⟨rfl, rfl⟩⟩

/-- C7: the rendering decision is a pure function of the extracted content
type: exactly `text/html` selects highlighting as "html", exactly
`application/json` selects highlighting as "json", and any other or
missing content type prints the body verbatim as a single uncolored chunk
(the body itself byte for byte, followed by the newline `println!`
appends; no escape character is introduced). -/
theorem c7_render_decision (body : Str) (m : Mime) :
    printBody (some textHtml) body = printWithSyntect body "html" ∧
    printBody (some applicationJson) body = printWithSyntect body "json" ∧
    (m ≠ textHtml → m ≠ applicationJson →
      printBody (some m) body = Except.ok [body ++ [nlChar]]) ∧
    printBody none body = Except.ok [body ++ [nlChar]] ∧
    (escChar ∉ body → escChar ∉ body ++ [nlChar]) := by
  have hja : applicationJson ≠ textHtml := by decide
  refine ⟨by simp [printBody], by simp [printBody, hja], ?_, rfl, ?_⟩
  · intro h1 h2
    simp [printBody, h1, h2]
  · intro h
    simp only [List.mem_append, h, false_or, List.mem_singleton]
    decide

/-- C7 witness: a `text/plain` content type prints the two-character body
`hi` verbatim with no coloring. -/
theorem c7_witness :
    printBody (some ⟨str "text", str "plain", []⟩) (str "hi") =
      Except.ok [str "hi" ++ [nlChar]] :=
  (c7_render_decision (str "hi") ⟨str "text", str "plain", []⟩).2.2.1
    (by decide) (by decide)

/-- C9 counterexample: a successfully received `200 OK` response whose
`Content-Type` header is `garbage` is rendered as the status line and the
header line only — the renderer then panics inside `get_content_type` and
the body is never printed, so the three parts are not printed
unconditionally. -/
theorem c9_counterexample :
    printAll
        ⟨str "HTTP/1.1", str "200 OK",
          [(str "content-type", str "garbage")], str "hi"⟩ =
      (formatStatus
          ⟨str "HTTP/1.1", str "200 OK",
            [(str "content-type", str "garbage")], str "hi"⟩ ::
        [(str "content-type", str "garbage")].map formatHeader,
       .error ()) :=
  rfl

/-- C9 (amended): for every received response the renderer prints the
status line first and then each header in the order received; the body
follows as the third part only when content-type extraction and the
highlight path do not panic — otherwise the run aborts after the status
line and headers, with no body output. -/
theorem c9_print_order_or_truncation (r : Response) :
    (∃ bodyOut,
        printAll r =
          (formatStatus r :: r.headers.map formatHeader ++ bodyOut, .ok ())) ∨
      printAll r = (formatStatus r :: r.headers.map formatHeader, .error ()) := by
  cases hm : getContentType (findContentTypeHeader r.headers) with
  | error e => exact Or.inr (by simp [printAll, hm])
  | ok m =>
    cases hb : printBody m r.body with
    | error e => exact Or.inr (by simp [printAll, hm, hb])
    | ok bodyOut => exact Or.inl ⟨bodyOut, by simp [printAll, hm, hb]⟩

/-- C8: when the `-u` token does not parse as an absolute URI, argument
validation fails with the wrapped url-crate error and no network send is
performed — the dispatch stage is never reached. -/
theorem c8_invalid_url_fails_before_network (c : Cmd) (e : UrlError)
    (h : urlParse (urlOf c) = .error e) :
    runCli c = (.error (.invalidUrl e), 0) := by
  cases c with
  | get u =>
    simp only [urlOf] at h
    simp [runCli, parseOpts, parse_url, h, Except.map]
  | post u b =>
    simp only [urlOf] at h
    simp [runCli, parseOpts, parse_url, h, Except.map]

/-- C8 witness: `not-a-url` has no scheme, so validation fails with the
relative-URL error and zero network sends happen. -/
theorem c8_witness :
    runCli (Cmd.get (str "not-a-url")) =
      (.error (.invalidUrl .relativeUrlWithoutBase), 0) :=
  c8_invalid_url_fails_before_network (Cmd.get (str "not-a-url"))
    .relativeUrlWithoutBase rfl

/-- C10: the stored and dispatched URL is the serialization of the parsed
URL, which normalizes the input — on `HTTP://Example.COM` the scheme and
host are lowercased and the missing path becomes `/`, so the stored string
differs from the raw input, which is not preserved. -/
theorem c10_url_is_normalized_serialization :
    (∀ (s : Str) (u : Url), urlParse s = .ok u →
      parse_url s = .ok (urlSerialize u)) ∧
    parse_url (str "HTTP://Example.COM") = .ok (str "http://example.com/") ∧
    str "http://example.com/" ≠ str "HTTP://Example.COM" := by
  refine ⟨fun s u h => by simp [parse_url, h, Except.map], rfl, by decide⟩

/-- C10 witness: the serialization equation evaluated on
`HTTP://Example.COM`. -/
theorem c10_witness :
    parse_url (str "HTTP://Example.COM") =
      .ok (urlSerialize
        (Url.special (str "http") none (str "example.com") none (str "/"))) :=
  c10_url_is_normalized_serialization.1 (str "HTTP://Example.COM")
    (Url.special (str "http") none (str "example.com") none (str "/")) rfl
